import Mathlib

/- Formal model of the Jarvis tool-orchestration core (tool_orchestrator.py)
   and reasoning dispatcher (jarvis_reasoning.py), together with theorems
   checking the specification's claims against the modelled code.

   Modelling conventions:
   * Python floats are modelled as rationals (ℚ); all constants in the code
     (0.3, 0.7, 0.2, priority / 10, ...) are exact decimal fractions.
   * Python strings are modelled as Lean `String` / `List Char`; the Python
     string primitives used by the code (`lower`, `strip`, `replace`,
     substring `in`) are defined below on `List Char` so that they are
     kernel-computable.
   * Python dicts that the code iterates over are modelled as association
     lists in insertion order, matching CPython's ordered-dict semantics.
   * `async` functions have no internal concurrency in the modelled code
     (each is a straight-line await chain), so they are modelled as pure
     functions; external effects (tool invocations, the LangChain agent,
     wall-clock time, the regular-expression engine) are parameters of the
     model. -/

namespace Jarvis

/-- Python `c.lower()` on a single character (ASCII letters; the queries'
Devanagari characters are caseless in both Python and this model). -/
def lowerChar (c : Char) : Char :=
  if 'A' ≤ c ∧ c ≤ 'Z' then Char.ofNat (c.toNat + 32) else c

/-- Python `s.lower()`. -/
def pyLower (s : List Char) : List Char := s.map lowerChar

/-- Python whitespace for `str.strip()`. -/
def isSpaceChar (c : Char) : Bool :=
  c = ' ' || c = '\t' || c = '\n' || c = '\r' || c = '\x0b' || c = '\x0c'

/-- Python `s.strip()`. -/
def pyStrip (s : List Char) : List Char :=
  ((s.dropWhile isSpaceChar).reverse.dropWhile isSpaceChar).reverse

/-- Python substring test `sub in s`. -/
def isSubOf (sub : List Char) : List Char → Bool
  | [] => sub.isEmpty
  | c :: rest => sub.isPrefixOf (c :: rest) || isSubOf sub rest

/-- Python substring test `sub in s` for `String` arguments. -/
def pyIn (sub : String) (s : List Char) : Bool := isSubOf sub.toList s

/-- One fuel-indexed step list of Python `s.replace(pat, rep)` (left-to-right,
non-overlapping); the fuel is the length of the scanned string, which bounds
the number of scanning steps. -/
def replaceAux (pat rep : List Char) : ℕ → List Char → List Char
  | _, [] => []
  | 0, s => s
  | fuel + 1, c :: rest =>
    if pat.isPrefixOf (c :: rest) then
      rep ++ replaceAux pat rep fuel ((c :: rest).drop (max pat.length 1))
    else c :: replaceAux pat rep fuel rest

/-- Python `s.replace(pat, rep)` (all occurrences, scanned left to right). -/
def pyReplace (s pat rep : List Char) : List Char := replaceAux pat rep s.length s

/-! Stable descending sort, the model of Python's
`sorted(..., key=..., reverse=True)` / `list.sort(key=..., reverse=True)`
(Python's sort is stable, and with `reverse=True` equal keys keep their
original relative order). -/

/-- Insert an element into a list sorted by non-increasing key, before the
first element whose key is not larger (which preserves stability). -/
def insertDesc {α : Type} (key : α → ℚ) (x : α) : List α → List α
  | [] => [x]
  | y :: ys => if key x < key y then y :: insertDesc key x ys else x :: y :: ys

/-- Stable insertion sort by non-increasing key. -/
def sortDesc {α : Type} (key : α → ℚ) : List α → List α
  | [] => []
  | x :: xs => insertDesc key x (sortDesc key xs)

theorem mem_insertDesc {α : Type} {key : α → ℚ} {x a : α} {l : List α} :
    a ∈ insertDesc key x l ↔ a = x ∨ a ∈ l := by
  induction l with
  | nil => simp [insertDesc]
  | cons y ys ih =>
    simp only [insertDesc]
    split
    · simp only [List.mem_cons, ih]; tauto
    · simp only [List.mem_cons]

theorem pairwise_insertDesc {α : Type} {key : α → ℚ} {x : α} {l : List α}
    (h : l.Pairwise (fun a b => key b ≤ key a)) :
    (insertDesc key x l).Pairwise (fun a b => key b ≤ key a) := by
  induction l with
  | nil => simp [insertDesc]
  | cons y ys ih =>
    rw [List.pairwise_cons] at h
    simp only [insertDesc]
    split
    · rename_i hlt
      refine List.pairwise_cons.mpr ⟨?_, ih h.2⟩
      intro b hb
      rcases mem_insertDesc.mp hb with rfl | hb
      · exact le_of_lt hlt
      · exact h.1 b hb
    · rename_i hge
      push_neg at hge
      refine List.pairwise_cons.mpr ⟨?_, List.pairwise_cons.mpr h⟩
      intro b hb
      rcases List.mem_cons.mp hb with rfl | hb
      · exact hge
      · exact le_trans (h.1 b hb) hge

theorem mem_sortDesc {α : Type} {key : α → ℚ} {a : α} {l : List α} :
    a ∈ sortDesc key l ↔ a ∈ l := by
  induction l with
  | nil => simp [sortDesc]
  | cons x xs ih => simp [sortDesc, mem_insertDesc, ih]

theorem pairwise_sortDesc {α : Type} (key : α → ℚ) (l : List α) :
    (sortDesc key l).Pairwise (fun a b => key b ≤ key a) := by
  induction l with
  | nil => simp [sortDesc]
  | cons x xs ih => exact pairwise_insertDesc ih

/-! Data model: `ToolCategory` and `ToolMetadata` (tool_orchestrator.py). -/

/-- The `ToolCategory` enum. -/
inductive ToolCategory
  | system_info
  | file_management
  | code_development
  | web_search
  | communication
  | automation
  | multimedia
  | productivity
  | learning
  | entertainment
  | utilities
  deriving DecidableEq

/-- The `.value` string of each `ToolCategory` member. -/
def ToolCategory.value : ToolCategory → String
  | .system_info => "system_info"
  | .file_management => "file_management"
  | .code_development => "code_development"
  | .web_search => "web_search"
  | .communication => "communication"
  | .automation => "automation"
  | .multimedia => "multimedia"
  | .productivity => "productivity"
  | .learning => "learning"
  | .entertainment => "entertainment"
  | .utilities => "utilities"

/-- The `ToolMetadata` dataclass; the Python `None` defaults of
`prerequisites` and `conflicts` are modelled as the empty list, which has
the same truthiness and iteration behaviour in every use site of the code. -/
structure ToolMetadata where
  name : String
  category : ToolCategory
  description : String
  keywords : List String
  priority : ℕ
  prerequisites : List String
  conflicts : List String
  min_confidence : ℚ
  async_capable : Bool
  estimated_time : ℚ

/-- Build a `ToolMetadata` with the dataclass defaults
(`prerequisites=None`, `conflicts=None`, `min_confidence=0.7`,
`async_capable=True`), as every registry entry except `create_code_file`
and `write_code` does. -/
def mkTool (name : String) (category : ToolCategory) (description : String)
    (keywords : List String) (priority : ℕ) (estimated_time : ℚ) : ToolMetadata :=
  { name := name, category := category, description := description,
    keywords := keywords, priority := priority, prerequisites := [],
    conflicts := [], min_confidence := 0.7, async_capable := true,
    estimated_time := estimated_time }

/-- Registry entry `get_system_info`. -/
def md_get_system_info : ToolMetadata :=
  mkTool "get_system_info" .system_info
    "Get comprehensive system information including CPU, memory, disk usage"
    ["system", "info", "hardware", "specs", "performance", "cpu", "memory", "ram"] 8 2

/-- Registry entry `open_vscode_sandbox`. -/
def md_open_vscode_sandbox : ToolMetadata :=
  mkTool "open_vscode_sandbox" .code_development
    "Open VS Code with safe sandbox environment for coding"
    ["vscode", "code", "editor", "ide", "programming", "development"] 9 5

/-- Registry entry `create_code_file` (declares the prerequisite
`open_vscode_sandbox`). -/
def md_create_code_file : ToolMetadata :=
  { name := "create_code_file", category := .code_development,
    description := "Create new code files with templates",
    keywords := ["create", "file", "code", "python", "javascript", "html", "new"],
    priority := 8, prerequisites := ["open_vscode_sandbox"], conflicts := [],
    min_confidence := 0.7, async_capable := true, estimated_time := 2 }

/-- Registry entry `write_code` (declares the prerequisite
`open_vscode_sandbox`). -/
def md_write_code : ToolMetadata :=
  { name := "write_code", category := .code_development,
    description := "Write code with proper formatting and syntax highlighting",
    keywords := ["write", "code", "type", "program", "script", "function"],
    priority := 8, prerequisites := ["open_vscode_sandbox"], conflicts := [],
    min_confidence := 0.7, async_capable := true, estimated_time := 10 }

/-- The tool registry built by `_initialize_tool_registry`, as an
association list in the dict's insertion order. -/
def tool_registry : List (String × ToolMetadata) := [
  ("get_system_info", md_get_system_info),
  ("get_running_processes", mkTool "get_running_processes" .system_info
    "Get list of running processes and resource usage"
    ["processes", "running", "tasks", "cpu", "memory", "performance"] 7 3),
  ("get_network_info", mkTool "get_network_info" .system_info
    "Get network information and connectivity status"
    ["network", "ip", "internet", "connection", "wifi"] 6 2),
  ("cleanup_system", mkTool "cleanup_system" .utilities
    "Clean temporary files and optimize system performance"
    ["clean", "cleanup", "optimize", "temp", "space", "storage"] 5 10),
  ("open_app", mkTool "open_app" .file_management
    "Open desktop applications"
    ["open", "launch", "start", "app", "application", "program"] 9 3),
  ("close_app", mkTool "close_app" .file_management
    "Close running applications"
    ["close", "quit", "exit", "stop", "end", "terminate"] 8 1),
  ("folder_file", mkTool "folder_file" .file_management
    "Handle folder and file operations like create, rename, delete"
    ["folder", "file", "create", "delete", "rename", "manage"] 8 2),
  ("Play_file", mkTool "Play_file" .multimedia
    "Open and play files like videos, documents, images"
    ["play", "open", "file", "video", "music", "document", "image"] 7 2),
  ("open_vscode_sandbox", md_open_vscode_sandbox),
  ("create_code_file", md_create_code_file),
  ("write_code", md_write_code),
  ("analyze_code", mkTool "analyze_code" .code_development
    "Analyze code for errors, style issues, and improvements"
    ["analyze", "check", "review", "debug", "error", "bug"] 7 3),
  ("generate_function", mkTool "generate_function" .code_development
    "Generate function templates with documentation"
    ["function", "generate", "template", "create", "method"] 7 3),
  ("generate_class", mkTool "generate_class" .code_development
    "Generate class templates with methods"
    ["class", "generate", "template", "create", "object"] 7 4),
  ("create_web_app", mkTool "create_web_app" .code_development
    "Generate complete web application templates"
    ["web", "app", "website", "api", "server", "flask", "fastapi", "express"] 6 8),
  ("google_search", mkTool "google_search" .web_search
    "Search Google for information with speech-friendly results"
    ["search", "google", "find", "information", "research", "lookup"] 9 3),
  ("get_weather", mkTool "get_weather" .web_search
    "Get current weather information for any city"
    ["weather", "temperature", "rain", "climate", "forecast"] 8 2),
  ("get_current_datetime", mkTool "get_current_datetime" .utilities
    "Get current date and time"
    ["time", "date", "clock", "current", "now"] 9 0.1),
  ("move_cursor_tool", mkTool "move_cursor_tool" .automation
    "Move mouse cursor in specified direction"
    ["cursor", "mouse", "move", "pointer"] 6 0.5),
  ("mouse_click_tool", mkTool "mouse_click_tool" .automation
    "Perform mouse clicks (left, right, double)"
    ["click", "mouse", "press", "select"] 7 0.5),
  ("type_text_tool", mkTool "type_text_tool" .automation
    "Type text safely with proper character handling"
    ["type", "text", "write", "input", "keyboard"] 8 5),
  ("press_key_tool", mkTool "press_key_tool" .automation
    "Press individual keyboard keys"
    ["key", "press", "keyboard", "button"] 7 0.5),
  ("control_volume_tool", mkTool "control_volume_tool" .automation
    "Control system volume (up, down, mute)"
    ["volume", "sound", "audio", "mute", "speaker"] 6 0.5),
  ("safe_text_input", mkTool "safe_text_input" .productivity
    "Safely input text with proper formatting and stop control"
    ["text", "write", "input", "type", "safe"] 8 8),
  ("stop_all_writing", mkTool "stop_all_writing" .utilities
    "Emergency stop for all writing operations"
    ["stop", "halt", "cancel", "emergency", "abort"] 10 0.1)]

/-! Intent classifier (`IntentClassifier` in tool_orchestrator.py).

The Python regular-expression engine (`re.search` / `re.findall`) is the one
external dependency of `classify_intent`; it is modelled by a parameter
`occ : String → List Char → ℕ` giving the number of non-overlapping matches
`len(re.findall(pattern, text))` of a pattern in a text (`re.search`
succeeds exactly when that count is at least 1). Every theorem about the
classifier is proved for every such occurrence function. -/

/-- The `intent_patterns` table, verbatim from the source, in insertion
order. -/
def intent_patterns : List (String × List String) := [
  ("system_info", ["system.*info|hardware|specs|performance|cpu|memory|ram|disk",
    "computer.*details|pc.*info|machine.*specs",
    "how much.*ram|storage.*space|processor.*speed"]),
  ("file_operations", ["file|folder|directory|create.*file|open.*file|delete.*file",
    "बनाओ|खोलो|delete करो|फ़ाइल|फोल्डर",
    "make.*folder|new.*directory|copy.*file"]),
  ("code_development", ["code|program|script|function|class|app|website|api",
    "python|javascript|html|css|react|flask|fastapi|node",
    "vs code|वीएस कोड|कोड लिखो|प्रोग्राम बनाओ",
    "bug|debug|error|fix.*code|analyze.*code"]),
  ("web_search", ["search|google|find.*information|look.*up|research",
    "खोजो|ढूंढो|information|जानकारी|search करो",
    "what.*is|how.*to|tell.*me.*about"]),
  ("weather", ["weather|temperature|rain|climate|मौसम|बारिश|तापमान",
    "forecast|humidity|wind|clouds|sunny|cloudy"]),
  ("automation", ["automate|control|keyboard|mouse|click|type|press",
    "volume|cursor|scroll|hotkey|shortcut",
    "automation|macro|script.*run"]),
  ("writing", ["write|type|text|document|note|letter|email",
    "लिखो|टाइप करो|text.*input|compose",
    "draft|content|article|blog|story"]),
  ("multimedia", ["play.*music|video|audio|image|photo|picture",
    "media|song|movie|gallery|camera|screenshot",
    "record|capture|stream"]),
  ("learning", ["learn|study|tutorial|course|lesson|teach|explain",
    "education|knowledge|skill|training|practice",
    "सिखाओ|समझाओ|tutorial|guide"]),
  ("entertainment", ["game|fun|joke|story|quiz|puzzle|music|movie",
    "entertainment|leisure|hobby|recreation",
    "मजा|खेल|कहानी|गाना"]),
  ("productivity", ["schedule|calendar|reminder|todo|task|meeting|appointment",
    "organize|plan|manage|productivity|efficiency",
    "काम|कार्य|meeting|reminder"]),
  ("communication", ["email|message|send|call|chat|contact|whatsapp|telegram",
    "communicate|reply|respond|forward|share",
    "संदेश|मैसेज|भेजो|call करो"])]

/-- The `hinglish_mappings` substitution table, in insertion order. -/
def hinglish_mappings : List (String × String) := [
  ("खोलो", "open"), ("बंद करो", "close"), ("बनाओ", "create"), ("लिखो", "write"),
  ("भेजो", "send"), ("ढूंढो", "search"), ("चलाओ", "play"), ("रुको", "stop"),
  ("सिस्टम", "system"), ("फ़ाइल", "file"), ("फोल्डर", "folder"), ("कोड", "code"),
  ("प्रोग्राम", "program")]

/-- Lowercasing followed by the Hinglish substitutions: the `query_lower`
computed at the start of `classify_intent`. -/
def normalize_query (q : String) : List Char :=
  hinglish_mappings.foldl (fun acc m => pyReplace acc m.1.toList m.2.toList)
    (pyLower q.toList)

/-- The per-category scoring loop of `classify_intent`: starting from 0.0,
for each pattern with at least one match take the maximum with
`min(matches * 0.3, 1.0)`. -/
def pattern_max_score (occ : String → List Char → ℕ) (ql : List Char)
    (patterns : List String) : ℚ :=
  patterns.foldl
    (fun mx p => if 1 ≤ occ p ql then max mx (min ((occ p ql : ℚ) * 0.3) 1) else mx) 0

/-- `IntentClassifier.classify_intent`: normalize, score every category,
keep the positive scores, add the +0.2 literal-name bonus (clamped to 1.0),
and sort by descending score. -/
def classify_intent (occ : String → List Char → ℕ) (query : String) :
    List (String × ℚ) :=
  let query_lower := normalize_query query
  let intent_scores := intent_patterns.filterMap (fun ip =>
    let m := pattern_max_score occ query_lower ip.2
    if 0 < m then some (ip.1, m) else none)
  let boosted := intent_scores.map (fun sc =>
    if pyIn sc.1 query_lower then (sc.1, min (sc.2 + 0.2) 1) else sc)
  sortDesc (fun x => x.2) boosted

/-- The pattern strength exactly as the specification words it:
`min(occurrences * 0.3, 1.0)`. -/
def spec_pattern_strength (occ : String → List Char → ℕ) (ql : List Char)
    (p : String) : ℚ :=
  min ((occ p ql : ℚ) * 0.3) 1

/-- The category score as the specification words it: the maximum pattern
strength over the category's patterns (0 when no pattern matches). -/
def spec_category_score (occ : String → List Char → ℕ) (ql : List Char)
    (patterns : List String) : ℚ :=
  patterns.foldl (fun mx p => max mx (spec_pattern_strength occ ql p)) 0

/-! Orchestrator scoring (`ToolOrchestrator.analyze_query`). The intent
scores produced by the classifier enter `analyze_query` as a mapping from
category name to score; the scoring functions below take that mapping as an
association list. -/

/-- Lookup in the intent-score mapping (`intents[category_name]`). -/
def intent_lookup (intents : List (String × ℚ)) (c : String) : Option ℚ :=
  (intents.find? (fun x => decide (x.1 = c))).map Prod.snd

/-- The keyword loop of `analyze_query`: 0.3 is added for every keyword of
the tool that occurs as a substring of the lowercased query. -/
def keyword_score (keywords : List String) (query_lower : List Char) : ℚ :=
  keywords.foldl (fun acc kw => if pyIn kw query_lower then acc + 0.3 else acc) 0

/-- The complete tool score of `analyze_query`: keyword score, plus 0.7
times the intent score of the tool's category when present, scaled by
`priority / 10`. -/
def tool_score (md : ToolMetadata) (intents : List (String × ℚ))
    (query_lower : List Char) : ℚ :=
  let s := keyword_score md.keywords query_lower
  let s := match intent_lookup intents md.category.value with
    | some v => s + v * 0.7
    | none => s
  s * ((md.priority : ℚ) / 10)

/-- The full `matching_tools` list of `analyze_query`: every registered tool
whose score reaches its `min_confidence`, sorted by descending score. -/
def matching_tools (registry : List (String × ToolMetadata))
    (intents : List (String × ℚ)) (query : String) :
    List (String × ToolMetadata × ℚ) :=
  let query_lower := pyLower query.toList
  let cand := registry.filterMap (fun t =>
    let sc := tool_score t.2 intents query_lower
    if t.2.min_confidence ≤ sc then some (t.1, t.2, sc) else none)
  sortDesc (fun x => x.2.2) cand

/-- The `matching_tools` entry of the analysis result: the top 5 of the
sorted list. -/
def analyze_matching (registry : List (String × ToolMetadata))
    (intents : List (String × ℚ)) (query : String) :
    List (String × ToolMetadata × ℚ) :=
  (matching_tools registry intents query).take 5

/-- The tool score as the specification and claim word it, with
`keywordHitRatio` read as the fraction of the tool's keywords that occur in
the lowercased query: `(0.3 * keywordHitRatio + 0.7 * intentScore) *
(priority / 10)`. -/
def claimed_tool_score (md : ToolMetadata) (intents : List (String × ℚ))
    (query_lower : List Char) : ℚ :=
  let hits := (md.keywords.filter (fun kw => pyIn kw query_lower)).length
  let hitFraction : ℚ := (hits : ℚ) / (md.keywords.length : ℚ)
  let iscore := match intent_lookup intents md.category.value with
    | some v => v
    | none => 0
  (0.3 * hitFraction + 0.7 * iscore) * ((md.priority : ℚ) / 10)

/-! Tool selection (`ToolOrchestrator.select_tools`). -/

/-- The selection loop: walk the ranked shortlist, skip conflicts with
already-selected tools, allow one tool per non-utility category, stop at 3
selections. -/
def select_go : List (String × ToolMetadata × ℚ) → List (String × ToolMetadata) →
    List ToolCategory → List (String × ToolMetadata)
  | [], sel, _ => sel
  | t :: rest, sel, used =>
    if t.2.1.conflicts.any (fun c => decide (c ∈ sel.map Prod.fst)) then
      select_go rest sel used
    else if t.2.1.category ≠ ToolCategory.utilities ∧ t.2.1.category ∈ used then
      select_go rest sel used
    else
      let used' := if t.2.1.category ≠ ToolCategory.utilities then
        t.2.1.category :: used else used
      let sel' := sel ++ [(t.1, t.2.1)]
      if 3 ≤ sel'.length then sel' else select_go rest sel' used'

/-- `ToolOrchestrator.select_tools` applied to the ranked
`matching_tools` list of an analysis. -/
def select_tools (ranked : List (String × ToolMetadata × ℚ)) :
    List (String × ToolMetadata) :=
  select_go ranked [] []

/-! Execution planning (`ToolOrchestrator.create_execution_plan`). -/

/-- Registry lookup (`prereq in self.tool_registry` followed by
`self.tool_registry[prereq]`). -/
def lookupTool (registry : List (String × ToolMetadata)) (n : String) :
    Option ToolMetadata :=
  (registry.find? (fun t => decide (t.1 = n))).map Prod.snd

/-- The `prerequisite_tools` list collected by the first loop of
`create_execution_plan`: for each selected tool, every declared prerequisite
that is not among the selected tool names, appended in iteration order (one
occurrence per declaring tool; the code does not deduplicate). -/
def missing_prereqs (selected : List (String × ToolMetadata)) : List String :=
  selected.flatMap (fun t =>
    t.2.prerequisites.filter (fun p => decide (p ∉ selected.map Prod.fst)))

/-- The execution plan produced by `create_execution_plan`. -/
structure ExecutionPlan where
  tools : List (String × ToolMetadata)
  estimated_time : ℚ
  requires_prerequisites : Bool
  execution_order : List String

/-- `ToolOrchestrator.create_execution_plan`: append all selected tools,
then `insert(0, ...)` each collected prerequisite that exists in the
registry. -/
def create_execution_plan (registry : List (String × ToolMetadata))
    (selected : List (String × ToolMetadata)) : ExecutionPlan :=
  let sorted_tools := (missing_prereqs selected).foldl
    (fun st p => match lookupTool registry p with
      | some md => (p, md) :: st
      | none => st) selected
  { tools := sorted_tools,
    estimated_time := sorted_tools.foldl (fun a t => a + t.2.estimated_time) 0,
    requires_prerequisites := ¬ (missing_prereqs selected).isEmpty,
    execution_order := sorted_tools.map Prod.fst }

/-- The prerequisite entries that `create_execution_plan` injects: the
collected missing prerequisites that exist in the registry, paired with
their registry metadata, in collection order. -/
def injected_tools (registry : List (String × ToolMetadata))
    (selected : List (String × ToolMetadata)) : List (String × ToolMetadata) :=
  (missing_prereqs selected).filterMap
    (fun p => (lookupTool registry p).map (fun md => (p, md)))

/-! Plan execution (`ToolOrchestrator.execute_plan`). A tool invocation
(`_execute_tool`) is an external effect; it is modelled by a parameter
`invoke : String → String → Except String String` mapping tool name and
query to either a result text or a raised exception's text. -/

/-- The result record built by `execute_plan`; `invoked` is the trace of
attempted tool invocations in order (the dict `tool_results` is an
insertion-ordered association list). -/
structure ExecResult where
  success : Bool
  tool_results : List (String × String)
  errors : List String
  invoked : List String

/-- One iteration of the `execute_plan` loop: invoke the tool; on success
record its result, on exception record the error text and clear the overall
success flag, and in both cases continue. -/
def execute_step (invoke : String → String → Except String String)
    (query : String) (acc : ExecResult) (t : String × ToolMetadata) : ExecResult :=
  match invoke t.1 query with
  | Except.ok r =>
    { acc with tool_results := acc.tool_results ++ [(t.1, r)],
               invoked := acc.invoked ++ [t.1] }
  | Except.error e =>
    { acc with errors := acc.errors ++ ["Error executing " ++ t.1 ++ ": " ++ e],
               success := false,
               invoked := acc.invoked ++ [t.1] }

/-- `ToolOrchestrator.execute_plan` over the plan's tool list. -/
def execute_plan (invoke : String → String → Except String String)
    (tools : List (String × ToolMetadata)) (query : String) : ExecResult :=
  tools.foldl (execute_step invoke query)
    { success := true, tool_results := [], errors := [], invoked := [] }

/-! Reasoning dispatcher (jarvis_reasoning.py). -/

/-- The `JarvisConfig` dataclass. -/
structure JarvisConfig where
  model_name : String
  max_retries : ℕ
  timeout_seconds : ℚ
  orchestrator_threshold : ℕ
  verbose_mode : Bool
  cache_size : ℕ
  min_query_length : ℕ
  max_query_length : ℕ
  enable_fallback : Bool
  log_performance : Bool
  deriving DecidableEq

/-- The dataclass defaults of `JarvisConfig`, the process-wide `_config`. -/
def defaultConfig : JarvisConfig :=
  { model_name := "gemini-2.0-flash", max_retries := 3, timeout_seconds := 30,
    orchestrator_threshold := 10, verbose_mode := true, cache_size := 128,
    min_query_length := 1, max_query_length := 1000, enable_fallback := true,
    log_performance := true }

/-- The `PerformanceMetrics` dataclass. -/
structure PerformanceMetrics where
  total_queries : ℕ
  successful_queries : ℕ
  orchestrator_queries : ℕ
  langchain_queries : ℕ
  average_response_time : ℚ
  total_response_time : ℚ
  error_count : ℕ
  last_error : Option String
  deriving DecidableEq

/-- The all-zero initial `PerformanceMetrics` (also the state installed by
`reset_performance_metrics`). -/
def initialMetrics : PerformanceMetrics :=
  { total_queries := 0, successful_queries := 0, orchestrator_queries := 0,
    langchain_queries := 0, average_response_time := 0,
    total_response_time := 0, error_count := 0, last_error := none }

/-- `PerformanceMetrics.update_success`. -/
def update_success (m : PerformanceMetrics) (response_time : ℚ)
    (method : String) : PerformanceMetrics :=
  let total := m.total_queries + 1
  let trt := m.total_response_time + response_time
  { m with
    total_queries := total,
    successful_queries := m.successful_queries + 1,
    total_response_time := trt,
    average_response_time := trt / (total : ℚ),
    orchestrator_queries :=
      if method = "orchestrator" then m.orchestrator_queries + 1
      else m.orchestrator_queries,
    langchain_queries :=
      if method = "orchestrator" then m.langchain_queries
      else m.langchain_queries + 1 }

/-- `PerformanceMetrics.update_error`. -/
def update_error (m : PerformanceMetrics) (error_msg : String) :
    PerformanceMetrics :=
  { m with
    total_queries := m.total_queries + 1,
    error_count := m.error_count + 1,
    last_error := some error_msg }

/-- The `JarvisError` exception: message, machine-readable code, and the
wrapped original error's text, if any. -/
structure JarvisError where
  message : String
  error_code : String
  original_error : Option String
  deriving DecidableEq

/-- `validate_query`. The argument is `Option String`: `none` models a
non-string Python value (rejected by the `isinstance` check exactly like the
empty string, both with code `INVALID_QUERY`). The length checks run on the
whitespace-stripped query, because the code reassigns
`query = query.strip()` before them. -/
def validate_query (cfg : JarvisConfig) (query : Option String) :
    Option JarvisError :=
  match query with
  | none => some ⟨"Query must be a non-empty string", "INVALID_QUERY", none⟩
  | some q =>
    if q.toList = [] then
      some ⟨"Query must be a non-empty string", "INVALID_QUERY", none⟩
    else
      let stripped := pyStrip q.toList
      if stripped.length < cfg.min_query_length then
        some ⟨"Query too short (minimum " ++ toString cfg.min_query_length ++
          " characters)", "QUERY_TOO_SHORT", none⟩
      else if cfg.max_query_length < stripped.length then
        some ⟨"Query too long (maximum " ++ toString cfg.max_query_length ++
          " characters)", "QUERY_TOO_LONG", none⟩
      else none

/-! `retry_with_backoff`. The retried operation is modelled as a function
from the attempt index to that attempt's outcome (result or raised
exception's text); the backoff sleeps are returned as a list of delays so
that timing claims can be stated. -/

/-- The retry loop body over the remaining attempt indices (the Python loop
runs over `range(max_retries + 1)`; a sleep of `base_delay * 2 ** attempt`
happens after a failure of every attempt except the last). Returns the final
outcome, the list of sleeps performed, and the number of attempts made. -/
def retry_attempts {α : Type} (f : ℕ → Except String α) (base_delay : ℚ) :
    List ℕ → Except String α × List ℚ × ℕ
  | [] => (Except.error "", [], 0)
  | [a] => (f a, [], 1)
  | a :: b :: rest =>
    match f a with
    | Except.ok v => (Except.ok v, [], 1)
    | Except.error _ =>
      let r := retry_attempts f base_delay (b :: rest)
      (r.1, base_delay * 2 ^ a :: r.2.1, r.2.2 + 1)

/-- `retry_with_backoff`: run the attempts; after exhaustion wrap the last
underlying error in a `JarvisError` with code `RETRY_EXHAUSTED`. -/
def retry_with_backoff {α : Type} (f : ℕ → Except String α) (max_retries : ℕ)
    (base_delay : ℚ) : Except JarvisError α × List ℚ × ℕ :=
  match retry_attempts f base_delay (List.range (max_retries + 1)) with
  | (Except.ok v, s, n) => (Except.ok v, s, n)
  | (Except.error e, s, n) =>
    (Except.error ⟨"Operation failed after " ++ toString (max_retries + 1) ++
      " attempts", "RETRY_EXHAUSTED", some e⟩, s, n)

/-- `_try_orchestrator` for a fixed query: run the orchestrator under
`retry_with_backoff` (base delay 1.0); on a result, accept it only when it
is non-empty and its stripped length exceeds the threshold; on any
exception, return `None` when fallback is enabled, otherwise raise
`ORCHESTRATOR_FAILED`. The second component is the number of orchestrator
attempts made. -/
def try_orchestrator (cfg : JarvisConfig) (orch : ℕ → Except String String) :
    Except JarvisError (Option String) × ℕ :=
  let r := retry_with_backoff orch cfg.max_retries 1
  match r.1 with
  | Except.ok s =>
    if s.toList ≠ [] ∧ cfg.orchestrator_threshold < (pyStrip s.toList).length then
      (Except.ok (some (String.mk (pyStrip s.toList))), r.2.2)
    else (Except.ok none, r.2.2)
  | Except.error _ =>
    if cfg.enable_fallback then (Except.ok none, r.2.2)
    else (Except.error ⟨"Orchestrator failed and fallback disabled",
      "ORCHESTRATOR_FAILED", none⟩, r.2.2)

/-- Behaviour of the cached LangChain agent's invocation under
`asyncio.wait_for` for a fixed query: it can exceed the timeout, return a
response text, or raise. The agent-caching machinery only selects which
executor object is invoked and is absorbed into this behaviour parameter. -/
inductive FallbackBehavior
  | times_out
  | returns (response : String)
  | raises (e : String)
  deriving DecidableEq

/-- `_try_langchain_agent`: timeout raises `EXECUTION_TIMEOUT`; a blank
response raises `EMPTY_RESPONSE`; any other exception is wrapped as
`LANGCHAIN_FAILED`; otherwise the stripped response is returned. -/
def try_langchain_agent (cfg : JarvisConfig) (fb : FallbackBehavior) :
    Except JarvisError String :=
  match fb with
  | .times_out =>
    Except.error ⟨"Query execution timed out after " ++
      toString cfg.timeout_seconds ++ "s", "EXECUTION_TIMEOUT", none⟩
  | .returns r =>
    if r.toList = [] ∨ pyStrip r.toList = [] then
      Except.error ⟨"LangChain agent returned empty response",
        "EMPTY_RESPONSE", none⟩
    else Except.ok (String.mk (pyStrip r.toList))
  | .raises e =>
    Except.error ⟨"LangChain agent execution failed: " ++ e,
      "LANGCHAIN_FAILED", some e⟩

/-- The dictionary returned by `thinking_capability`. -/
structure DispatchResult where
  success : Bool
  response : Option String
  method : Option String
  error : Option String
  error_code : Option String
  execution_time : ℚ
  deriving DecidableEq

/-- A complete dispatch outcome: the returned dictionary, the updated
metrics, the number of orchestrator attempts made, and whether the fallback
agent was invoked. -/
structure DispatchOutcome where
  result : DispatchResult
  metrics : PerformanceMetrics
  orch_attempts : ℕ
  fallback_invoked : Bool

/-- The failure dictionary built by the `except JarvisError` handler of
`thinking_capability`. -/
def errorResult (je : JarvisError) (t : ℚ) : DispatchResult :=
  { success := false, response := none, method := none,
    error := some je.message, error_code := some je.error_code,
    execution_time := t }

/-- `thinking_capability` for one query: validate, try the orchestrator,
fall back to the LangChain agent when enabled, convert every `JarvisError`
into a structured failure dictionary, and update the metrics on every
terminal outcome. `t` is the measured elapsed time of the call. -/
def thinking_capability (cfg : JarvisConfig) (metrics : PerformanceMetrics)
    (query : Option String) (orch : ℕ → Except String String)
    (fb : FallbackBehavior) (t : ℚ) : DispatchOutcome :=
  match validate_query cfg query with
  | some je =>
    { result := errorResult je t,
      metrics := update_error metrics (je.error_code ++ ": " ++ je.message),
      orch_attempts := 0, fallback_invoked := false }
  | none =>
    let orc := try_orchestrator cfg orch
    match orc.1 with
    | Except.ok (some r) =>
      let res : DispatchResult :=
        { success := true, response := some r, method := some "orchestrator",
          error := none, error_code := none, execution_time := t }
      { result := res,
        metrics := update_success metrics t "orchestrator",
        orch_attempts := orc.2, fallback_invoked := false }
    | Except.ok none =>
      if cfg.enable_fallback then
        match try_langchain_agent cfg fb with
        | Except.ok r =>
          let res : DispatchResult :=
            { success := true, response := some r, method := some "langchain",
              error := none, error_code := none, execution_time := t }
          { result := res,
            metrics := update_success metrics t "langchain",
            orch_attempts := orc.2, fallback_invoked := true }
        | Except.error je =>
          { result := errorResult je t,
            metrics := update_error metrics (je.error_code ++ ": " ++ je.message),
            orch_attempts := orc.2, fallback_invoked := true }
      else
        let je : JarvisError := ⟨"No available execution method could handle the query",
          "NO_METHOD_AVAILABLE", none⟩
        { result := errorResult je t,
          metrics := update_error metrics (je.error_code ++ ": " ++ je.message),
          orch_attempts := orc.2, fallback_invoked := false }
    | Except.error je =>
      { result := errorResult je t,
        metrics := update_error metrics (je.error_code ++ ": " ++ je.message),
        orch_attempts := orc.2, fallback_invoked := false }

/-! Metric update sequences, for the claims about the metrics. -/

/-- One terminal dispatch outcome as the metrics see it: `thinking_capability`
calls `update_success(execution_time, method)` on success and
`update_error(error_msg)` on failure. A failed dispatch also measures an
`execution_time`, but `update_error` is not given it; it is carried here so
that the claimed average over all completed queries can be stated. -/
inductive DispatchOp
  | success (response_time : ℚ) (method : String)
  | failure (response_time : ℚ) (error_msg : String)

/-- Apply one dispatch outcome to the metrics. -/
def applyDispatchOp (m : PerformanceMetrics) : DispatchOp → PerformanceMetrics
  | .success rt method => update_success m rt method
  | .failure _ msg => update_error m msg

/-- Apply a sequence of dispatch outcomes to the metrics. -/
def applyDispatchOps (m : PerformanceMetrics) (ops : List DispatchOp) :
    PerformanceMetrics :=
  ops.foldl applyDispatchOp m

/-- One call on the metrics object: `update_success`, `update_error`, or
`reset_performance_metrics`. -/
inductive MetricsCall
  | call_success (response_time : ℚ) (method : String)
  | call_error (msg : String)
  | call_reset

/-- Apply one metrics call. -/
def applyMetricsCall (m : PerformanceMetrics) : MetricsCall → PerformanceMetrics
  | .call_success rt method => update_success m rt method
  | .call_error msg => update_error m msg
  | .call_reset => initialMetrics

/-! Helper observations about dispatch-outcome sequences. -/

/-- Whether a dispatch outcome is a success. -/
def isSuccessOp : DispatchOp → Bool
  | .success _ _ => true
  | .failure _ _ => false

/-- Whether a dispatch outcome is a success recorded for the orchestrator
method. -/
def isOrchSuccess : DispatchOp → Bool
  | .success _ method => decide (method = "orchestrator")
  | .failure _ _ => false

/-- Whether a dispatch outcome is a success recorded for any non-orchestrator
method (counted as `langchain_queries` by `update_success`). -/
def isLangSuccess : DispatchOp → Bool
  | .success _ method => decide (method ≠ "orchestrator")
  | .failure _ _ => false

/-- The response time the metrics record for an outcome: `update_success`
records the measured time, `update_error` records none (zero). -/
def successTime : DispatchOp → ℚ
  | .success rt _ => rt
  | .failure _ _ => 0

/-- The measured elapsed time of an outcome, success or failure: what
`dispatch` actually measures for the query. -/
def opTime : DispatchOp → ℚ
  | .success rt _ => rt
  | .failure rt _ => rt

/-- The most recent error message of a sequence of outcomes, if any. -/
def lastErrorOf : List DispatchOp → Option String
  | [] => none
  | .failure _ msg :: rest => (lastErrorOf rest).or (some msg)
  | .success _ _ :: rest => lastErrorOf rest

theorem applyDispatchOps_fields (m : PerformanceMetrics) (ops : List DispatchOp) :
    (applyDispatchOps m ops).total_queries = m.total_queries + ops.length ∧
    (applyDispatchOps m ops).successful_queries
      = m.successful_queries + (ops.filter isSuccessOp).length ∧
    (applyDispatchOps m ops).error_count
      = m.error_count + (ops.filter (fun op => ! isSuccessOp op)).length ∧
    (applyDispatchOps m ops).orchestrator_queries
      = m.orchestrator_queries + (ops.filter isOrchSuccess).length ∧
    (applyDispatchOps m ops).langchain_queries
      = m.langchain_queries + (ops.filter isLangSuccess).length ∧
    (applyDispatchOps m ops).total_response_time
      = m.total_response_time + (ops.map successTime).sum ∧
    (applyDispatchOps m ops).last_error = (lastErrorOf ops).or m.last_error := by
  induction ops generalizing m with
  | nil => simp [applyDispatchOps, lastErrorOf]
  | cons op rest ih =>
    have hstep : applyDispatchOps m (op :: rest)
        = applyDispatchOps (applyDispatchOp m op) rest := by
      simp [applyDispatchOps]
    obtain ⟨h1, h2, h3, h4, h5, h6, h7⟩ := ih (applyDispatchOp m op)
    rw [hstep]
    refine ⟨?_, ?_, ?_, ?_, ?_, ?_, ?_⟩
    · rw [h1]
      cases op <;> simp [applyDispatchOp, update_success, update_error] <;> omega
    · rw [h2]
      cases op <;>
        simp [applyDispatchOp, update_success, update_error, isSuccessOp,
          List.filter_cons] <;> omega
    · rw [h3]
      cases op <;>
        simp [applyDispatchOp, update_success, update_error, isSuccessOp,
          List.filter_cons] <;> omega
    · rw [h4]
      cases op with
      | success rt method =>
        by_cases hm : method = "orchestrator" <;>
          simp [applyDispatchOp, update_success, isOrchSuccess,
            List.filter_cons, hm] <;> omega
      | failure rt msg =>
        simp [applyDispatchOp, update_error, isOrchSuccess, List.filter_cons]
    · rw [h5]
      cases op with
      | success rt method =>
        by_cases hm : method = "orchestrator" <;>
          simp [applyDispatchOp, update_success, isLangSuccess,
            List.filter_cons, hm] <;> omega
      | failure rt msg =>
        simp [applyDispatchOp, update_error, isLangSuccess, List.filter_cons]
    · rw [h6]
      cases op <;>
        simp [applyDispatchOp, update_success, update_error, successTime] <;> ring
    · rw [h7]
      cases op with
      | success rt method => simp [applyDispatchOp, update_success, lastErrorOf]
      | failure rt msg =>
        simp only [applyDispatchOp, update_error, lastErrorOf]
        cases lastErrorOf rest <;> simp [Option.or]

/-- C9 counterexample: starting from the initial metrics, a failed dispatch
measured at 1 second followed by a successful dispatch measured at 1 second
leaves `average_response_time = 1/2`, while the arithmetic mean of the
response times over all completed queries is `(1 + 1) / 2 = 1` (and the mean
over successful queries alone is also `1`), so the claimed equality fails:
`update_error` never records the failed query's response time yet the
failure still enlarges the denominator. -/
theorem metrics_average_claim_counterexample :
    (applyDispatchOps initialMetrics
        [DispatchOp.failure 1 "boom", DispatchOp.success 1 "orchestrator"]
      ).average_response_time = 1 / 2 ∧
    (opTime (DispatchOp.failure 1 "boom")
        + opTime (DispatchOp.success 1 "orchestrator")) / 2 = 1 ∧
    ((1 : ℚ) / 2 ≠ 1) := by
  refine ⟨?_, by norm_num [opTime], by norm_num⟩
  norm_num [applyDispatchOps, applyDispatchOp, update_error, update_success,
    initialMetrics]

/-- C9 (amended): on every terminal outcome the metrics increment
total-queries, increment the success or error counters and the per-method
usage counters on the corresponding outcome, and record the latest error
text on failure; the running average response time, however, equals the sum
of the response times of the *successful* queries divided by the count of
*all* completed queries as of the most recent success — a successful
outcome recomputes it to that quotient and a failed outcome leaves it
unchanged (failed queries enlarge only the denominator, at the next
success). -/
theorem metrics_update_spec (ops : List DispatchOp) (rt : ℚ) (method msg : String) :
    (applyDispatchOps initialMetrics ops).total_queries = ops.length ∧
    (applyDispatchOps initialMetrics ops).successful_queries
      = (ops.filter isSuccessOp).length ∧
    (applyDispatchOps initialMetrics ops).error_count
      = (ops.filter (fun op => ! isSuccessOp op)).length ∧
    (applyDispatchOps initialMetrics ops).orchestrator_queries
      = (ops.filter isOrchSuccess).length ∧
    (applyDispatchOps initialMetrics ops).langchain_queries
      = (ops.filter isLangSuccess).length ∧
    (applyDispatchOps initialMetrics ops).last_error = lastErrorOf ops ∧
    (applyDispatchOps initialMetrics (ops ++ [DispatchOp.success rt method])
      ).average_response_time
      = ((ops.map successTime).sum + rt) / ((ops.length : ℚ) + 1) ∧
    (applyDispatchOps initialMetrics (ops ++ [DispatchOp.failure rt msg])
      ).average_response_time
      = (applyDispatchOps initialMetrics ops).average_response_time := by
  obtain ⟨h1, h2, h3, h4, h5, h6, h7⟩ := applyDispatchOps_fields initialMetrics ops
  have happ : ∀ op, applyDispatchOps initialMetrics (ops ++ [op])
      = applyDispatchOp (applyDispatchOps initialMetrics ops) op := by
    intro op; simp [applyDispatchOps]
  refine ⟨by rw [h1]; simp [initialMetrics], by rw [h2]; simp [initialMetrics],
    by rw [h3]; simp [initialMetrics], by rw [h4]; simp [initialMetrics],
    by rw [h5]; simp [initialMetrics],
    by rw [h7]; simp [initialMetrics, Option.or_none], ?_, ?_⟩
  · rw [happ]
    simp only [applyDispatchOp, update_success]
    rw [h6, h1]
    simp [initialMetrics]
  · rw [happ]
    simp [applyDispatchOp, update_error]

/-- C10: starting from the all-zero metrics, every sequence of
`update_success`, `update_error` and `reset_performance_metrics` calls
preserves `total_queries = successful_queries + error_count` and
`successful_queries = orchestrator_queries + langchain_queries`. -/
theorem metrics_invariant_spec (calls : List MetricsCall) :
    (calls.foldl applyMetricsCall initialMetrics).total_queries
      = (calls.foldl applyMetricsCall initialMetrics).successful_queries
        + (calls.foldl applyMetricsCall initialMetrics).error_count ∧
    (calls.foldl applyMetricsCall initialMetrics).successful_queries
      = (calls.foldl applyMetricsCall initialMetrics).orchestrator_queries
        + (calls.foldl applyMetricsCall initialMetrics).langchain_queries := by
  induction calls using List.reverseRecOn with
  | nil => simp [initialMetrics]
  | append_singleton l c ih =>
    obtain ⟨ih1, ih2⟩ := ih
    rw [List.foldl_append, List.foldl_cons, List.foldl_nil]
    cases c with
    | call_success rt method =>
      by_cases hm : method = "orchestrator" <;>
        simp [applyMetricsCall, update_success, hm] <;> omega
    | call_error msg =>
      simp [applyMetricsCall, update_error] <;> omega
    | call_reset => simp [applyMetricsCall, initialMetrics]

/-! Plan execution: observations for the C4 theorem. -/

/-- The error text recorded by `execute_plan` for a tool, if its invocation
raises. -/
def errorTextOf (invoke : String → String → Except String String)
    (query : String) (t : String × ToolMetadata) : Option String :=
  match invoke t.1 query with
  | Except.ok _ => none
  | Except.error e => some ("Error executing " ++ t.1 ++ ": " ++ e)

/-- The `tool_results` entry recorded by `execute_plan` for a tool, if its
invocation succeeds. -/
def resultOf (invoke : String → String → Except String String)
    (query : String) (t : String × ToolMetadata) : Option (String × String) :=
  match invoke t.1 query with
  | Except.ok r => some (t.1, r)
  | Except.error _ => none

/-- Whether a tool's invocation succeeds. -/
def invokeOk (invoke : String → String → Except String String)
    (query : String) (t : String × ToolMetadata) : Bool :=
  match invoke t.1 query with
  | Except.ok _ => true
  | Except.error _ => false

theorem execute_plan_foldl (invoke : String → String → Except String String)
    (query : String) (tools : List (String × ToolMetadata)) (acc : ExecResult) :
    (tools.foldl (execute_step invoke query) acc).invoked
      = acc.invoked ++ tools.map Prod.fst ∧
    (tools.foldl (execute_step invoke query) acc).errors
      = acc.errors ++ tools.filterMap (errorTextOf invoke query) ∧
    (tools.foldl (execute_step invoke query) acc).tool_results
      = acc.tool_results ++ tools.filterMap (resultOf invoke query) ∧
    (tools.foldl (execute_step invoke query) acc).success
      = (acc.success && tools.all (invokeOk invoke query)) := by
  induction tools generalizing acc with
  | nil => simp
  | cons t rest ih =>
    obtain ⟨ih1, ih2, ih3, ih4⟩ := ih (execute_step invoke query acc t)
    rw [List.foldl_cons]
    cases hi : invoke t.1 query with
    | ok r =>
      refine ⟨?_, ?_, ?_, ?_⟩
      · rw [ih1]; simp [execute_step, hi]
      · rw [ih2]; simp [execute_step, hi, errorTextOf]
      · rw [ih3]; simp [execute_step, hi, resultOf]
      · rw [ih4]; simp [execute_step, hi, invokeOk]
    | error e =>
      refine ⟨?_, ?_, ?_, ?_⟩
      · rw [ih1]; simp [execute_step, hi]
      · rw [ih2]; simp [execute_step, hi, errorTextOf]
      · rw [ih3]; simp [execute_step, hi, resultOf]
      · rw [ih4]; simp [execute_step, hi, invokeOk]

/-- C4: `execute_plan` attempts every planned tool exactly once, strictly in
plan order (the `invoked` trace equals the plan's tool-name sequence); the
error list collects, in plan order, the `Error executing ...` text of every
tool whose invocation raised; the overall success flag is `false` exactly
when some invocation raised; the recorded results are the succeeded tools'
outputs in plan order; and every planned tool — in particular every tool
after a failing one — is invoked. -/
theorem execute_plan_spec (invoke : String → String → Except String String)
    (tools : List (String × ToolMetadata)) (query : String) :
    (execute_plan invoke tools query).invoked = tools.map Prod.fst ∧
    (execute_plan invoke tools query).errors
      = tools.filterMap (errorTextOf invoke query) ∧
    (execute_plan invoke tools query).tool_results
      = tools.filterMap (resultOf invoke query) ∧
    (execute_plan invoke tools query).success = tools.all (invokeOk invoke query) ∧
    (∀ t ∈ tools, t.1 ∈ (execute_plan invoke tools query).invoked) := by
  obtain ⟨h1, h2, h3, h4⟩ := execute_plan_foldl invoke query tools
    { success := true, tool_results := [], errors := [], invoked := [] }
  refine ⟨?_, ?_, ?_, ?_, ?_⟩
  · simpa [execute_plan] using h1
  · simpa [execute_plan] using h2
  · simpa [execute_plan] using h3
  · simpa [execute_plan] using h4
  · intro t ht
    have : t.1 ∈ tools.map Prod.fst := List.mem_map_of_mem Prod.fst ht
    simpa [execute_plan, h1] using this

/-! Tool selection: the C3 theorem. -/

theorem select_go_spec (pending : List (String × ToolMetadata × ℚ)) :
    ∀ (sel : List (String × ToolMetadata)) (used : List ToolCategory),
      sel.length < 3 →
      sel.Pairwise (fun a b => a.1 ∉ b.2.conflicts) →
      sel.Pairwise (fun a b => a.2.category = b.2.category →
        b.2.category = ToolCategory.utilities) →
      (∀ a ∈ sel, a.2.category ≠ ToolCategory.utilities → a.2.category ∈ used) →
      (select_go pending sel used).length ≤ 3 ∧
      (select_go pending sel used).Pairwise (fun a b => a.1 ∉ b.2.conflicts) ∧
      (select_go pending sel used).Pairwise (fun a b =>
        a.2.category = b.2.category → b.2.category = ToolCategory.utilities) ∧
      ∃ e, select_go pending sel used = sel ++ e ∧
        e.Sublist (pending.map (fun t => (t.1, t.2.1))) := by
  induction pending with
  | nil =>
    intro sel used hlen hS hC hused
    refine ⟨by simpa [select_go] using le_of_lt hlen,
      by simpa [select_go] using hS, by simpa [select_go] using hC,
      [], by simp [select_go], List.nil_sublist _⟩
  | cons t rest ih =>
    intro sel used hlen hS hC hused
    simp only [select_go, List.map_cons]
    by_cases hconf :
        t.2.1.conflicts.any (fun c => decide (c ∈ sel.map Prod.fst)) = true
    · rw [if_pos hconf]
      obtain ⟨r1, r2, r3, e, he, hsub⟩ := ih sel used hlen hS hC hused
      exact ⟨r1, r2, r3, e, he, hsub.cons _⟩
    · rw [if_neg hconf]
      by_cases hcat : t.2.1.category ≠ ToolCategory.utilities ∧ t.2.1.category ∈ used
      · rw [if_pos hcat]
        obtain ⟨r1, r2, r3, e, he, hsub⟩ := ih sel used hlen hS hC hused
        exact ⟨r1, r2, r3, e, he, hsub.cons _⟩
      · rw [if_neg hcat]
        have hnotconf : ∀ a ∈ sel, a.1 ∉ t.2.1.conflicts := by
          intro a ha hmem
          apply hconf
          simp only [List.any_eq_true, decide_eq_true_eq]
          exact ⟨a.1, hmem, List.mem_map_of_mem Prod.fst ha⟩
        have hcatok : ∀ a ∈ sel,
            a.2.category = t.2.1.category → t.2.1.category = ToolCategory.utilities := by
          intro a ha heq
          by_contra hne
          exact hcat ⟨hne, heq ▸ hused a ha (heq ▸ hne)⟩
        have hSx : (sel ++ [(t.1, t.2.1)]).Pairwise
            (fun a b => a.1 ∉ b.2.conflicts) := by
          rw [List.pairwise_append]
          refine ⟨hS, by simp, ?_⟩
          intro a ha b hb
          rw [List.mem_singleton] at hb
          subst hb
          exact hnotconf a ha
        have hCx : (sel ++ [(t.1, t.2.1)]).Pairwise (fun a b =>
            a.2.category = b.2.category → b.2.category = ToolCategory.utilities) := by
          rw [List.pairwise_append]
          refine ⟨hC, by simp, ?_⟩
          intro a ha b hb
          rw [List.mem_singleton] at hb
          subst hb
          exact hcatok a ha
        have husedx : ∀ a ∈ sel ++ [(t.1, t.2.1)],
            a.2.category ≠ ToolCategory.utilities →
            a.2.category ∈ (if t.2.1.category ≠ ToolCategory.utilities then
              t.2.1.category :: used else used) := by
          intro a ha hne
          rcases List.mem_append.mp ha with ha | ha
          · have hmem := hused a ha hne
            split
            · exact List.mem_cons_of_mem _ hmem
            · exact hmem
          · rw [List.mem_singleton] at ha
            subst ha
            rw [if_pos hne]
            exact List.mem_cons_self _ _
        by_cases hstop : 3 ≤ (sel ++ [(t.1, t.2.1)]).length
        · rw [if_pos hstop]
          refine ⟨?_, hSx, hCx, [(t.1, t.2.1)], rfl, ?_⟩
          · simp only [List.length_append, List.length_singleton]
            omega
          · exact (List.nil_sublist _).cons₂ _
        · rw [if_neg hstop]
          obtain ⟨r1, r2, r3, e, he, hsub⟩ := ih (sel ++ [(t.1, t.2.1)])
            (if t.2.1.category ≠ ToolCategory.utilities then
              t.2.1.category :: used else used)
            (by simp only [List.length_append, List.length_singleton] at hstop ⊢; omega)
            hSx hCx husedx
          refine ⟨r1, r2, r3, (t.1, t.2.1) :: e, ?_, hsub.cons₂ _⟩
          rw [he, List.append_cons, List.append_assoc]
          simp

/-- C3: for every ranked analysis result, `select_tools` returns at most 3
tools, never two tools that each declare the other in their conflict sets
(the code guarantees more: a selected tool never declares any
earlier-selected tool), never two tools sharing an equal non-utility
category, and the selection is an order-preserving subsequence of the
ranked shortlist — the tools are considered exactly in the shortlist's
(non-increasing score) order. -/
theorem select_tools_spec (ranked : List (String × ToolMetadata × ℚ)) :
    (select_tools ranked).length ≤ 3 ∧
    (select_tools ranked).Pairwise (fun a b =>
      ¬ (b.1 ∈ a.2.conflicts ∧ a.1 ∈ b.2.conflicts)) ∧
    (select_tools ranked).Pairwise (fun a b =>
      a.2.category = b.2.category → b.2.category = ToolCategory.utilities) ∧
    (select_tools ranked).Sublist (ranked.map (fun t => (t.1, t.2.1))) := by
  obtain ⟨r1, r2, r3, e, he, hsub⟩ := select_go_spec ranked [] []
    (by simp) (by simp) (by simp) (by simp)
  refine ⟨r1, ?_, r3, ?_⟩
  · exact r2.imp (fun h hb => h hb.2)
  · rw [select_tools, he] at *
    simpa using hsub

/-! Retry with backoff: the C6 theorem. -/

theorem retry_attempts_ok {α : Type} (f : ℕ → Except String α) (base : ℚ) (v : α) :
    ∀ (k s n : ℕ), k < n → (∀ i, i < k → ∃ e, f (s + i) = Except.error e) →
      f (s + k) = Except.ok v →
      retry_attempts f base (List.range' s n) =
        (Except.ok v, (List.range k).map (fun i => base * 2 ^ (s + i)), k + 1) := by
  intro k
  induction k with
  | zero =>
    intro s n hn _ hok
    rw [Nat.add_zero] at hok
    match n, hn with
    | 1, _ => simp [List.range', retry_attempts, hok]
    | (m + 2), _ => simp [List.range', retry_attempts, hok]
  | succ k ihk =>
    intro s n hn hfail hok
    obtain ⟨e0, he0⟩ := hfail 0 (Nat.succ_pos k)
    rw [Nat.add_zero] at he0
    match n, hn with
    | (m + 2), hn =>
      have hlist : List.range' s (m + 2) = s :: List.range' (s + 1) (m + 1) := by
        simp [List.range']
      rw [hlist]
      have hrec := ihk (s + 1) (m + 1) (by omega)
        (fun i hi => by
          obtain ⟨e, he⟩ := hfail (i + 1) (by omega)
          exact ⟨e, by rw [← he]; congr 1; omega⟩)
        (by rw [← hok]; congr 1; omega)
      have hlist2 : List.range' (s + 1) (m + 1) = (s + 1) :: List.range' (s + 2) m := by
        simp [List.range']
      rw [hlist2] at hrec
      simp only [retry_attempts, he0, hrec]
      have hmap : (List.range (k + 1)).map (fun i => base * 2 ^ (s + i))
          = base * 2 ^ s :: (List.range k).map (fun i => base * 2 ^ (s + 1 + i)) := by
        rw [List.range_succ_eq_map]
        simp only [List.map_cons, List.map_map, Nat.add_zero]
        congr 1
        apply List.map_congr_left
        intro i _
        simp only [Function.comp_apply]
        congr 2
        omega
      rw [hmap]

theorem retry_attempts_err {α : Type} (f : ℕ → Except String α) (base : ℚ) :
    ∀ (n s : ℕ), (∀ i, i ≤ n → ∃ e, f (s + i) = Except.error e) →
      ∃ e, f (s + n) = Except.error e ∧
        retry_attempts f base (List.range' s (n + 1)) =
          (Except.error e, (List.range n).map (fun i => base * 2 ^ (s + i)), n + 1) := by
  intro n
  induction n with
  | zero =>
    intro s hfail
    obtain ⟨e, he⟩ := hfail 0 (le_refl 0)
    rw [Nat.add_zero] at he
    exact ⟨e, he, by simp [List.range', retry_attempts, he]⟩
  | succ n ihn =>
    intro s hfail
    obtain ⟨e0, he0⟩ := hfail 0 (Nat.zero_le _)
    rw [Nat.add_zero] at he0
    obtain ⟨e, he, hrec⟩ := ihn (s + 1) (fun i hi => by
      obtain ⟨e, he⟩ := hfail (i + 1) (by omega)
      exact ⟨e, by rw [← he]; congr 1; omega⟩)
    refine ⟨e, by rw [← he]; congr 1; omega, ?_⟩
    have hlist : List.range' s (n + 2) = s :: List.range' (s + 1) (n + 1) := by
      simp [List.range']
    rw [hlist]
    have hlist2 : List.range' (s + 1) (n + 1) = (s + 1) :: List.range' (s + 2) n := by
      simp [List.range']
    rw [hlist2] at hrec
    rw [hlist2]
    simp only [retry_attempts, he0, hrec]
    have hmap : (List.range (n + 1)).map (fun i => base * 2 ^ (s + i))
        = base * 2 ^ s :: (List.range n).map (fun i => base * 2 ^ (s + 1 + i)) := by
      rw [List.range_succ_eq_map]
      simp only [List.map_cons, List.map_map, Nat.add_zero]
      congr 1
      apply List.map_congr_left
      intro i _
      simp only [Function.comp_apply]
      congr 2
      omega
    rw [hmap]

theorem retry_attempts_count_le {α : Type} (f : ℕ → Except String α) (base : ℚ) :
    ∀ l : List ℕ, (retry_attempts f base l).2.2 ≤ l.length := by
  intro l
  induction l with
  | nil => simp [retry_attempts]
  | cons a rest ih =>
    cases rest with
    | nil => simp [retry_attempts]
    | cons b r2 =>
      simp only [retry_attempts]
      cases f a with
      | ok v => simp
      | error e =>
        simp only [List.length_cons]
        have := ih
        simp only [List.length_cons] at this
        omega

/-- C6: `retry_with_backoff` makes at most `max_retries + 1` attempts; when
the operation fails on exactly the first `k ≤ max_retries` attempts and then
succeeds, the call returns the operation's result after `k + 1` attempts,
having slept `base_delay * 2 ^ attempt` before each retry (so the total
sleep equals — hence is at least — `base_delay * (2^0 + ... + 2^(k-1))`);
and when all `max_retries + 1` attempts fail, it fails with a
`RETRY_EXHAUSTED` `JarvisError` wrapping the last underlying error. -/
theorem retry_with_backoff_spec {α : Type} (f : ℕ → Except String α)
    (max_retries k : ℕ) (base_delay : ℚ) (v : α) :
    ((retry_with_backoff f max_retries base_delay).2.2 ≤ max_retries + 1) ∧
    (k ≤ max_retries → (∀ i, i < k → ∃ e, f i = Except.error e) →
      f k = Except.ok v →
      retry_with_backoff f max_retries base_delay =
        (Except.ok v, (List.range k).map (fun i => base_delay * 2 ^ i), k + 1) ∧
      ((List.range k).map (fun i => base_delay * 2 ^ i)).sum =
        base_delay * ((List.range k).map (fun i => (2 : ℚ) ^ i)).sum) ∧
    ((∀ i, i ≤ max_retries → ∃ e, f i = Except.error e) →
      ∃ e, f max_retries = Except.error e ∧
        retry_with_backoff f max_retries base_delay =
          (Except.error ⟨"Operation failed after " ++ toString (max_retries + 1) ++
              " attempts", "RETRY_EXHAUSTED", some e⟩,
            (List.range max_retries).map (fun i => base_delay * 2 ^ i),
            max_retries + 1)) := by
  refine ⟨?_, ?_, ?_⟩
  · have hcount := retry_attempts_count_le f base_delay (List.range (max_retries + 1))
    rw [List.length_range] at hcount
    unfold retry_with_backoff
    rcases h : retry_attempts f base_delay (List.range (max_retries + 1)) with ⟨res, s, cnt⟩
    rw [h] at hcount
    cases res <;> simpa using hcount
  · intro hk hfail hok
    have hrange : List.range (max_retries + 1) = List.range' 0 (max_retries + 1) := by
      rw [List.range_eq_range']
    have h := retry_attempts_ok f base_delay v k 0 (max_retries + 1) (by omega)
      (fun i hi => by simpa using hfail i hi) (by simpa using hok)
    constructor
    · unfold retry_with_backoff
      rw [hrange, h]
      simp
    · rw [List.sum_map_mul_left]
  · intro hfail
    have hrange : List.range (max_retries + 1) = List.range' 0 (max_retries + 1) := by
      rw [List.range_eq_range']
    obtain ⟨e, he, hrec⟩ := retry_attempts_err f base_delay max_retries 0
      (fun i hi => by simpa using hfail i hi)
    refine ⟨e, by simpa using he, ?_⟩
    unfold retry_with_backoff
    rw [hrange, hrec]
    simp

/-! Query analysis: the C1 theorem. -/

theorem mem_matching_tools (reg : List (String × ToolMetadata))
    (ints : List (String × ℚ)) (q : String) (name : String) (md : ToolMetadata)
    (s : ℚ) :
    ((name, md, s) ∈ matching_tools reg ints q) ↔
      ((name, md) ∈ reg ∧ s = tool_score md ints (pyLower q.toList) ∧
        md.min_confidence ≤ s) := by
  simp only [matching_tools]
  rw [mem_sortDesc]
  simp only [List.mem_filterMap]
  constructor
  · rintro ⟨t, ht, hf⟩
    by_cases hc : t.2.min_confidence ≤ tool_score t.2 ints (pyLower q.toList)
    · rw [if_pos hc] at hf
      have hinj := Option.some.inj hf
      have h1 : t.1 = name := congrArg Prod.fst hinj
      have h2 : t.2 = md := congrArg (fun x => x.2.1) hinj
      have h3 : tool_score t.2 ints (pyLower q.toList) = s :=
        congrArg (fun x => x.2.2) hinj
      have ht' : (name, md) ∈ reg := by
        have : t = (name, md) := Prod.ext h1 h2
        rw [← this]; exact ht
      refine ⟨ht', by rw [← h3, h2], ?_⟩
      rw [h2] at h3 hc
      rw [h3] at hc
      exact hc
    · rw [if_neg hc] at hf
      exact absurd hf (by simp)
  · rintro ⟨hmem, rfl, hc⟩
    exact ⟨(name, md), hmem, by rw [if_pos hc]⟩

theorem matching_tools_sorted (reg : List (String × ToolMetadata))
    (ints : List (String × ℚ)) (q : String) :
    (matching_tools reg ints q).Pairwise (fun a b => b.2.2 ≤ a.2.2) := by
  simp only [matching_tools]
  exact pairwise_sortDesc _ _

/-- C1 (amended): in `analyze_query`, each registered tool's score is
0.3 times its number of keyword hits (the code adds a flat 0.3 per keyword
occurring in the lowercased query — a count, not a hit ratio) plus 0.7
times the classifier's intent score for the tool's category, scaled by
`priority / 10`; a tool is in the (full) matching list exactly when that
score reaches its `min_confidence`; the list is sorted non-increasingly by
score and the retained analysis entry is its top 5. -/
theorem analyze_query_matching_spec (reg : List (String × ToolMetadata))
    (ints : List (String × ℚ)) (q : String) (name : String) (md : ToolMetadata)
    (h : (name, md) ∈ reg) :
    (∀ s, ((name, md, s) ∈ matching_tools reg ints q ↔
      (s = tool_score md ints (pyLower q.toList) ∧ md.min_confidence ≤ s))) ∧
    (matching_tools reg ints q).Pairwise (fun a b => b.2.2 ≤ a.2.2) ∧
    (analyze_matching reg ints q).Pairwise (fun a b => b.2.2 ≤ a.2.2) ∧
    (analyze_matching reg ints q).length ≤ 5 := by
  refine ⟨?_, matching_tools_sorted reg ints q, ?_, ?_⟩
  · intro s
    rw [mem_matching_tools]
    constructor
    · rintro ⟨_, h2, h3⟩
      exact ⟨h2, h3⟩
    · rintro ⟨h2, h3⟩
      exact ⟨h, h2, h3⟩
  · simp only [analyze_matching]
    exact List.Pairwise.sublist (List.take_sublist _ _)
      (matching_tools_sorted reg ints q)
  · simp only [analyze_matching]
    exact List.length_take_le _ _

/-- Witness for the C1 theorem on a singleton registry. -/
theorem analyze_query_matching_spec_witness :
    (("get_system_info", md_get_system_info)
        ∈ [("get_system_info", md_get_system_info)]) ∧
    (analyze_matching [("get_system_info", md_get_system_info)] [] "x").length ≤ 5 :=
  ⟨List.Mem.head _,
    (analyze_query_matching_spec [("get_system_info", md_get_system_info)] [] "x"
      "get_system_info" md_get_system_info (List.Mem.head _)).2.2.2⟩

/-- C1 counterexample: for the query `"system info hardware"` with intent
score 0.3 for `system_info` (the classifier's score for one pattern match),
the tool `get_system_info` hits 3 of its 8 keywords. The code's score is
`(3 * 0.3 + 0.3 * 0.7) * 0.8 = 0.888 ≥ 0.7`, so the tool is retained in the
matching list; the claim's formula with `keywordHitRatio = 3/8` gives
`(0.3 * 3/8 + 0.7 * 0.3) * 0.8 = 0.258 < 0.7 = min_confidence`, under which
the tool would have to be absent — the claimed if-and-only-if fails. -/
theorem analyze_query_claim_counterexample :
    (("get_system_info", md_get_system_info,
        tool_score md_get_system_info [("system_info", 0.3)]
          (pyLower "system info hardware".toList))
      ∈ matching_tools [("get_system_info", md_get_system_info)]
          [("system_info", 0.3)] "system info hardware") ∧
    claimed_tool_score md_get_system_info [("system_info", 0.3)]
        (pyLower "system info hardware".toList)
      < md_get_system_info.min_confidence := by
  have hql : pyLower "system info hardware".toList
      = "system info hardware".toList := by decide
  have h1 : pyIn "system" "system info hardware".toList = true := by decide
  have h2 : pyIn "info" "system info hardware".toList = true := by decide
  have h3 : pyIn "hardware" "system info hardware".toList = true := by decide
  have h4 : pyIn "specs" "system info hardware".toList = false := by decide
  have h5 : pyIn "performance" "system info hardware".toList = false := by decide
  have h6 : pyIn "cpu" "system info hardware".toList = false := by decide
  have h7 : pyIn "memory" "system info hardware".toList = false := by decide
  have h8 : pyIn "ram" "system info hardware".toList = false := by decide
  have hlook : intent_lookup [("system_info", (0.3 : ℚ))] "system_info"
      = some 0.3 := by
    simp [intent_lookup, List.find?]
  have hkw : keyword_score
      ["system", "info", "hardware", "specs", "performance", "cpu", "memory", "ram"]
      "system info hardware".toList = 0.9 := by
    simp only [keyword_score, List.foldl_cons, List.foldl_nil,
      h1, h2, h3, h4, h5, h6, h7, h8, if_true, if_false, Bool.false_eq_true]
    norm_num
  have hts : tool_score md_get_system_info [("system_info", 0.3)]
      (pyLower "system info hardware".toList) = 0.888 := by
    rw [hql]
    simp only [tool_score, md_get_system_info, mkTool, ToolCategory.value, hlook,
      hkw]
    norm_num
  have hclaim : claimed_tool_score md_get_system_info [("system_info", 0.3)]
      (pyLower "system info hardware".toList) = 0.258 := by
    rw [hql]
    simp only [claimed_tool_score, md_get_system_info, mkTool, ToolCategory.value,
      hlook, List.filter_cons, List.filter_nil,
      h1, h2, h3, h4, h5, h6, h7, h8, if_true, if_false, Bool.false_eq_true]
    norm_num
  constructor
  · rw [mem_matching_tools]
    refine ⟨List.Mem.head _, rfl, ?_⟩
    rw [hts]
    simp only [md_get_system_info, mkTool]
    norm_num
  · rw [hclaim]
    simp only [md_get_system_info, mkTool]
    norm_num

/-! Execution planning: the C2 theorem. -/

theorem foldl_insert_head (registry : List (String × ToolMetadata)) :
    ∀ (ps : List String) (base : List (String × ToolMetadata)),
      ps.foldl (fun st p => match lookupTool registry p with
        | some md => (p, md) :: st
        | none => st) base
      = (ps.filterMap (fun p => (lookupTool registry p).map
          (fun md => (p, md)))).reverse ++ base := by
  intro ps
  induction ps with
  | nil => intro base; simp
  | cons p ps ih =>
    intro base
    rw [List.foldl_cons, List.filterMap_cons]
    cases hl : lookupTool registry p with
    | none =>
      simp only [hl, Option.map_none']
      exact ih base
    | some md =>
      simp only [hl, Option.map_some']
      rw [ih ((p, md) :: base), List.reverse_cons, List.append_assoc]
      simp

theorem filterMap_lookup_names (registry : List (String × ToolMetadata)) :
    ∀ ps : List String,
      (ps.filterMap (fun p => (lookupTool registry p).map
          (fun md => (p, md)))).map Prod.fst
        = ps.filter (fun p => (lookupTool registry p).isSome) := by
  intro ps
  induction ps with
  | nil => simp
  | cons p ps ih =>
    rw [List.filterMap_cons, List.filter_cons]
    cases hl : lookupTool registry p with
    | none => simp [hl, ih]
    | some md => simp [hl, ih]

theorem create_execution_plan_tools (registry : List (String × ToolMetadata))
    (selected : List (String × ToolMetadata)) :
    (create_execution_plan registry selected).tools
      = (injected_tools registry selected).reverse ++ selected := by
  simp only [create_execution_plan, injected_tools]
  rw [foldl_insert_head]

theorem mem_prefix_of_append_eq {α : Type} :
    ∀ (A : List α) {B l₁ l₂ : List α} {n : α},
      A ++ B = l₁ ++ n :: l₂ → n ∉ A → ∀ p ∈ A, p ∈ l₁ := by
  intro A
  induction A with
  | nil =>
    intro B l₁ l₂ n _ _ p hp
    cases hp
  | cons a A ih =>
    intro B l₁ l₂ n h hn p hp
    cases l₁ with
    | nil =>
      rw [List.nil_append] at h
      injection h with hab _
      exact absurd (hab ▸ List.mem_cons_self a A) hn
    | cons b l₁ =>
      rw [List.cons_append, List.cons_append] at h
      injection h with hab htl
      rcases List.mem_cons.mp hp with rfl | hp
      · rw [← hab]
        exact List.mem_cons_self _ _
      · exact List.mem_cons_of_mem _
          (ih htl (fun hm => hn (List.mem_cons_of_mem _ hm)) p hp)

/-- C2 counterexample: selecting `create_code_file` and `write_code` (which
both declare the missing prerequisite `open_vscode_sandbox`) produces the
plan order `[open_vscode_sandbox, open_vscode_sandbox, create_code_file,
write_code]` — the shared missing prerequisite is injected twice, not at
most once; and selecting `write_code` before `open_vscode_sandbox` (the
prerequisite present in the selection) produces the order `[write_code,
open_vscode_sandbox]`, in which the declared prerequisite never precedes its
dependent. -/
theorem create_execution_plan_claim_counterexample :
    ("open_vscode_sandbox"
        ∉ ([("create_code_file", md_create_code_file),
            ("write_code", md_write_code)].map Prod.fst)) ∧
    md_create_code_file.prerequisites = ["open_vscode_sandbox"] ∧
    md_write_code.prerequisites = ["open_vscode_sandbox"] ∧
    (create_execution_plan tool_registry
        [("create_code_file", md_create_code_file),
         ("write_code", md_write_code)]).execution_order.count
      "open_vscode_sandbox" = 2 ∧
    (create_execution_plan tool_registry
        [("write_code", md_write_code),
         ("open_vscode_sandbox", md_open_vscode_sandbox)]).execution_order
      = ["write_code", "open_vscode_sandbox"] ∧
    ¬ ∃ i j : ℕ, i < j ∧
        (create_execution_plan tool_registry
          [("write_code", md_write_code),
           ("open_vscode_sandbox", md_open_vscode_sandbox)]).execution_order[i]?
          = some "open_vscode_sandbox" ∧
        (create_execution_plan tool_registry
          [("write_code", md_write_code),
           ("open_vscode_sandbox", md_open_vscode_sandbox)]).execution_order[j]?
          = some "write_code" := by
  have horder : (create_execution_plan tool_registry
      [("write_code", md_write_code),
       ("open_vscode_sandbox", md_open_vscode_sandbox)]).execution_order
      = ["write_code", "open_vscode_sandbox"] := by decide
  refine ⟨by decide, by decide, by decide, by decide, horder, ?_⟩
  rintro ⟨i, j, hij, hi, hj⟩
  rw [horder] at hi hj
  have hj2 : 2 ≤ j := by
    rcases i with _ | _ | i
    · simp at hi
    · omega
    · rw [List.getElem?_eq_none
          (by simp only [List.length_cons, List.length_nil]; omega)] at hi
      exact Option.noConfusion hi
  rw [List.getElem?_eq_none
    (by simp only [List.length_cons, List.length_nil]; omega)] at hj
  exact Option.noConfusion hj

/-- C2 (amended): `create_execution_plan` prepends, in front of all selected
tools, one copy of each declared prerequisite that is missing from the
selection and present in the registry, once per selected tool that declares
it (a shared missing prerequisite is injected once for each dependent, not
globally once); consequently every injected prerequisite precedes every
selected tool — in particular each of its dependents — in the plan order,
while a prerequisite that is itself part of the selection keeps its
selection position and is not reordered before its dependent. -/
theorem create_execution_plan_spec (registry : List (String × ToolMetadata))
    (selected : List (String × ToolMetadata)) :
    (create_execution_plan registry selected).tools
      = (injected_tools registry selected).reverse ++ selected ∧
    (create_execution_plan registry selected).execution_order
      = ((injected_tools registry selected).map Prod.fst).reverse
        ++ selected.map Prod.fst ∧
    (∀ p, p ∉ selected.map Prod.fst → (lookupTool registry p).isSome →
      (create_execution_plan registry selected).execution_order.count p
        = (missing_prereqs selected).count p) ∧
    (∀ n mdd, (n, mdd) ∈ selected → ∀ p ∈ mdd.prerequisites,
      p ∉ selected.map Prod.fst → (lookupTool registry p).isSome →
      ∀ l₁ l₂, (create_execution_plan registry selected).execution_order
          = l₁ ++ n :: l₂ → p ∈ l₁) := by
  have htools := create_execution_plan_tools registry selected
  have horder : (create_execution_plan registry selected).execution_order
      = ((injected_tools registry selected).map Prod.fst).reverse
        ++ selected.map Prod.fst := by
    have : (create_execution_plan registry selected).execution_order
        = (create_execution_plan registry selected).tools.map Prod.fst := rfl
    rw [this, htools, List.map_append, List.map_reverse]
  refine ⟨htools, horder, ?_, ?_⟩
  · intro p hpnot hpreg
    rw [horder, List.count_append, List.count_reverse]
    have hz : (selected.map Prod.fst).count p = 0 := List.count_eq_zero.mpr hpnot
    rw [hz, Nat.add_zero]
    rw [injected_tools, filterMap_lookup_names]
    exact List.count_filter hpreg
  · intro n mdd hsel p hp hpnot hpreg l₁ l₂ hdecomp
    rw [horder] at hdecomp
    have hpA : p ∈ ((injected_tools registry selected).map Prod.fst).reverse := by
      rw [List.mem_reverse, injected_tools, filterMap_lookup_names,
        List.mem_filter]
      refine ⟨?_, hpreg⟩
      rw [missing_prereqs, List.mem_flatMap]
      exact ⟨(n, mdd), hsel, List.mem_filter.mpr ⟨hp, by simpa using hpnot⟩⟩
    have hnA : n ∉ ((injected_tools registry selected).map Prod.fst).reverse := by
      intro hmem
      rw [List.mem_reverse, injected_tools, filterMap_lookup_names,
        List.mem_filter, missing_prereqs, List.mem_flatMap] at hmem
      obtain ⟨⟨t, _, hmem2⟩, _⟩ := hmem
      have := (List.mem_filter.mp hmem2).2
      simp only [decide_eq_true_eq] at this
      exact this (List.mem_map_of_mem Prod.fst hsel)
    exact mem_prefix_of_append_eq _ hdecomp hnA p hpA

/-- Witness for the C2 theorem: selecting only `create_code_file` injects
its missing prerequisite `open_vscode_sandbox` with the right multiplicity. -/
theorem create_execution_plan_spec_witness :
    ("open_vscode_sandbox"
        ∉ ([("create_code_file", md_create_code_file)].map Prod.fst) ∧
      (lookupTool tool_registry "open_vscode_sandbox").isSome = true) ∧
    (create_execution_plan tool_registry
        [("create_code_file", md_create_code_file)]).execution_order.count
        "open_vscode_sandbox"
      = (missing_prereqs [("create_code_file", md_create_code_file)]).count
          "open_vscode_sandbox" :=
  ⟨⟨by decide, by decide⟩,
    (create_execution_plan_spec tool_registry
        [("create_code_file", md_create_code_file)]).2.2.1
      "open_vscode_sandbox" (by decide) (by decide)⟩

/-! Intent classification: the C8 theorem. -/

theorem foldl_guarded_max_eq (occ : String → List Char → ℕ) (ql : List Char) :
    ∀ (pats : List String) (init : ℚ), 0 ≤ init →
      pats.foldl (fun mx p => if 1 ≤ occ p ql then
          max mx (min ((occ p ql : ℚ) * 0.3) 1) else mx) init
        = pats.foldl (fun mx p => max mx (spec_pattern_strength occ ql p)) init := by
  intro pats
  induction pats with
  | nil => intro init _; rfl
  | cons p ps ih =>
    intro init hinit
    simp only [List.foldl_cons]
    by_cases h : 1 ≤ occ p ql
    · rw [if_pos h]
      simp only [spec_pattern_strength]
      exact ih _ (le_trans hinit (le_max_left _ _))
    · rw [if_neg h]
      have h0 : occ p ql = 0 := by omega
      have hs : spec_pattern_strength occ ql p = 0 := by
        simp only [spec_pattern_strength, h0, Nat.cast_zero, zero_mul]
        norm_num
      rw [hs, max_eq_left hinit]
      exact ih init hinit

theorem pattern_max_score_eq (occ : String → List Char → ℕ) (ql : List Char)
    (pats : List String) :
    pattern_max_score occ ql pats = spec_category_score occ ql pats := by
  unfold pattern_max_score spec_category_score
  exact foldl_guarded_max_eq occ ql pats 0 le_rfl

theorem mem_classify_intent (occ : String → List Char → ℕ) (q : String)
    (name : String) (s : ℚ) :
    ((name, s) ∈ classify_intent occ q) ↔
      ∃ pats, (name, pats) ∈ intent_patterns ∧
        0 < spec_category_score occ (normalize_query q) pats ∧
        s = (if pyIn name (normalize_query q) then
              min (spec_category_score occ (normalize_query q) pats + 0.2) 1
            else spec_category_score occ (normalize_query q) pats) := by
  simp only [classify_intent]
  rw [mem_sortDesc]
  simp only [List.mem_map, List.mem_filterMap]
  constructor
  · rintro ⟨⟨n0, m0⟩, ⟨ip, hip, hg⟩, hf⟩
    by_cases hpos : 0 < pattern_max_score occ (normalize_query q) ip.2
    · rw [if_pos hpos] at hg
      have hinj := Option.some.inj hg
      have hn0 : ip.1 = n0 := congrArg Prod.fst hinj
      have hm0 : pattern_max_score occ (normalize_query q) ip.2 = m0 :=
        congrArg Prod.snd hinj
      by_cases hb : pyIn n0 (normalize_query q) = true
      · rw [if_pos hb] at hf
        have hname : n0 = name := congrArg Prod.fst hf
        have hsval : min (m0 + 0.2) 1 = s := congrArg Prod.snd hf
        refine ⟨ip.2, ?_, ?_, ?_⟩
        · rw [← hname, ← hn0]
          simpa using hip
        · rw [← pattern_max_score_eq, hm0]
          rw [hm0] at hpos
          have : (0 : ℚ) < m0 := hpos
          simpa [← hm0] using hpos
        · rw [← hname, if_pos hb, ← hsval, ← pattern_max_score_eq, hm0]
      · rw [if_neg hb] at hf
        have hname : n0 = name := congrArg Prod.fst hf
        have hsval : m0 = s := congrArg Prod.snd hf
        refine ⟨ip.2, ?_, ?_, ?_⟩
        · rw [← hname, ← hn0]
          simpa using hip
        · rw [← pattern_max_score_eq]
          simpa [← hm0] using hpos
        · rw [← hname, if_neg hb, ← hsval, ← pattern_max_score_eq, hm0]
    · rw [if_neg hpos] at hg
      exact absurd hg (by simp)
  · rintro ⟨pats, hmem, hpos, hs⟩
    have hpos' : 0 < pattern_max_score occ (normalize_query q) pats := by
      rw [pattern_max_score_eq]; exact hpos
    refine ⟨(name, pattern_max_score occ (normalize_query q) pats),
      ⟨(name, pats), hmem, by rw [if_pos hpos']⟩, ?_⟩
    by_cases hb : pyIn name (normalize_query q) = true
    · rw [if_pos hb]
      rw [if_pos hb] at hs
      rw [pattern_max_score_eq, ← hs]
    · rw [if_neg hb]
      rw [if_neg hb] at hs
      rw [pattern_max_score_eq, ← hs]

/-- C8: for every occurrence function of the regular-expression engine,
`classify_intent` lowercases and applies the Hinglish substitutions to the
query, gives each category the maximum `min(occurrences * 0.3, 1.0)` pattern
strength over its patterns, adds the flat +0.2 bonus clamped to 1.0 exactly
when the category's own name occurs literally in the normalized text, omits
every category whose score is 0, and returns the scores sorted
non-increasingly; it is a pure function (determinism) and lowercasing makes
it case-insensitive: two queries with equal lowercasings classify
identically. -/
theorem classify_intent_spec (occ : String → List Char → ℕ) (q q2 : String)
    (hcase : pyLower q.toList = pyLower q2.toList) :
    (classify_intent occ q).Pairwise (fun a b => b.2 ≤ a.2) ∧
    (∀ name s, ((name, s) ∈ classify_intent occ q) ↔
      ∃ pats, (name, pats) ∈ intent_patterns ∧
        0 < spec_category_score occ (normalize_query q) pats ∧
        s = (if pyIn name (normalize_query q) then
              min (spec_category_score occ (normalize_query q) pats + 0.2) 1
            else spec_category_score occ (normalize_query q) pats)) ∧
    classify_intent occ q = classify_intent occ q2 := by
  refine ⟨?_, fun name s => mem_classify_intent occ q name s, ?_⟩
  · simp only [classify_intent]
    exact pairwise_sortDesc _ _
  · unfold classify_intent normalize_query
    rw [hcase]

/-- Witness for the C8 theorem: `"Code"` and `"cODE"` lowercase equally and
classify identically (under the everywhere-zero occurrence function). -/
theorem classify_intent_spec_witness :
    pyLower "Code".toList = pyLower "cODE".toList ∧
    classify_intent (fun _ _ => 0) "Code" = classify_intent (fun _ _ => 0) "cODE" :=
  ⟨by decide, (classify_intent_spec (fun _ _ => 0) "Code" "cODE" (by decide)).2.2⟩

/-! Query validation and dispatch: the C5 and C7 theorems. -/

/-- A configuration with `max_query_length = 3`, for the maximum-boundary
check. -/
def smallMaxConfig : JarvisConfig := { defaultConfig with max_query_length := 3 }

/-- C5 counterexample: the length checks of `validate_query` run on the
whitespace-stripped query, not the query itself. The query `" "` has length
exactly `min_query_length = 1` yet fails with `QUERY_TOO_SHORT` (its
stripped length is 0), and with `max_query_length = 3` the query `"aaa "`
has length 4 — strictly above the maximum — yet passes validation (its
stripped length is 3). -/
theorem validate_query_claim_counterexample :
    " ".toList.length = defaultConfig.min_query_length ∧
    (validate_query defaultConfig (some " ")).map JarvisError.error_code
      = some "QUERY_TOO_SHORT" ∧
    smallMaxConfig.max_query_length + 1 = "aaa ".toList.length ∧
    validate_query smallMaxConfig (some "aaa ") = none := by
  refine ⟨by decide, by decide, by decide, by decide⟩

/-- C5 (amended): `validate_query` fails with `INVALID_QUERY` when the query
is a non-string or the empty string, with `QUERY_TOO_SHORT` when the
*stripped* query's length is strictly below the configured minimum, and with
`QUERY_TOO_LONG` when the stripped length is strictly above the configured
maximum; a query whose stripped length is exactly at either bound passes;
and a validation failure makes `thinking_capability` return the structured
failure immediately: the orchestrator is attempted zero times (so the retry
loop is never entered) and the fallback agent is not invoked. -/
theorem validate_query_spec (cfg : JarvisConfig) (q : String)
    (metrics : PerformanceMetrics) (orch : ℕ → Except String String)
    (fb : FallbackBehavior) (t : ℚ) :
    ((validate_query cfg none).map JarvisError.error_code
      = some "INVALID_QUERY") ∧
    ((validate_query cfg (some "")).map JarvisError.error_code
      = some "INVALID_QUERY") ∧
    (q.toList ≠ [] → (pyStrip q.toList).length < cfg.min_query_length →
      (validate_query cfg (some q)).map JarvisError.error_code
        = some "QUERY_TOO_SHORT") ∧
    (q.toList ≠ [] → cfg.min_query_length ≤ (pyStrip q.toList).length →
      cfg.max_query_length < (pyStrip q.toList).length →
      (validate_query cfg (some q)).map JarvisError.error_code
        = some "QUERY_TOO_LONG") ∧
    (q.toList ≠ [] → cfg.min_query_length ≤ (pyStrip q.toList).length →
      (pyStrip q.toList).length ≤ cfg.max_query_length →
      validate_query cfg (some q) = none) ∧
    (∀ je, validate_query cfg (some q) = some je →
      (thinking_capability cfg metrics (some q) orch fb t).orch_attempts = 0 ∧
      (thinking_capability cfg metrics (some q) orch fb t).fallback_invoked
        = false ∧
      (thinking_capability cfg metrics (some q) orch fb t).result.success
        = false ∧
      (thinking_capability cfg metrics (some q) orch fb t).result.error_code
        = some je.error_code) := by
  refine ⟨rfl, rfl, ?_, ?_, ?_, ?_⟩
  · intro hne hlt
    simp only [validate_query]
    rw [if_neg hne, if_pos hlt]
    rfl
  · intro hne hge hgt
    simp only [validate_query]
    rw [if_neg hne, if_neg (not_lt.mpr hge), if_pos hgt]
    rfl
  · intro hne hge hle
    simp only [validate_query]
    rw [if_neg hne, if_neg (not_lt.mpr hge), if_neg (not_lt.mpr hle)]
  · intro je hje
    simp only [thinking_capability, hje]
    simp [errorResult]

/-- Witness for the C5 theorem: `"hi"` passes validation under the default
configuration. -/
theorem validate_query_spec_witness :
    ("hi".toList ≠ [] ∧
      defaultConfig.min_query_length ≤ (pyStrip "hi".toList).length ∧
      (pyStrip "hi".toList).length ≤ defaultConfig.max_query_length) ∧
    validate_query defaultConfig (some "hi") = none :=
  ⟨⟨by decide, by decide, by decide⟩,
    (validate_query_spec defaultConfig "hi" initialMetrics
        (fun _ => Except.ok "") FallbackBehavior.times_out 0).2.2.2.2.1
      (by decide) (by decide) (by decide)⟩

/-- C7: `thinking_capability` is a total function of the query and of the
orchestrator's and fallback agent's behaviours — every exception of the
modelled code is converted into the structured result — and the result
always carries the success flag and the measured execution time, plus an
error message and machine-readable error code on failure (and a response and
method on success). When validation passes, the orchestrator path yields no
result and fallback is enabled, a fallback call exceeding the timeout
produces error code `EXECUTION_TIMEOUT` and a blank fallback response
produces error code `EMPTY_RESPONSE`. -/
theorem thinking_capability_total_spec (cfg : JarvisConfig)
    (metrics : PerformanceMetrics) (query : Option String)
    (orch : ℕ → Except String String) (fb : FallbackBehavior) (t : ℚ) :
    ∀ o : DispatchOutcome, o = thinking_capability cfg metrics query orch fb t →
      (o.result.execution_time = t) ∧
      (o.result.success = false →
        o.result.error.isSome = true ∧ o.result.error_code.isSome = true) ∧
      (o.result.success = true →
        o.result.response.isSome = true ∧ o.result.method.isSome = true) ∧
      (validate_query cfg query = none →
        (try_orchestrator cfg orch).1 = Except.ok none →
        cfg.enable_fallback = true →
        ((fb = FallbackBehavior.times_out →
          o.result.success = false ∧
          o.result.error_code = some "EXECUTION_TIMEOUT") ∧
        (∀ r, fb = FallbackBehavior.returns r → pyStrip r.toList = [] →
          o.result.success = false ∧
          o.result.error_code = some "EMPTY_RESPONSE"))) := by
  rintro o rfl
  cases hv : validate_query cfg query with
  | some je =>
    simp only [thinking_capability, hv]
    simp [errorResult]
  | none =>
    cases ho : (try_orchestrator cfg orch).1 with
    | ok oo =>
      cases oo with
      | some r =>
        simp only [thinking_capability, hv, ho]
        simp
      | none =>
        by_cases hf : cfg.enable_fallback = true
        · cases hl : try_langchain_agent cfg fb with
          | ok r2 =>
            simp only [thinking_capability, hv, ho, hf, if_true, hl]
            refine ⟨by simp, by simp, by simp, ?_⟩
            intro _ _ _
            constructor
            · intro hfb
              subst hfb
              simp only [try_langchain_agent] at hl
              exact Except.noConfusion hl
            · intro r hfb hblank
              subst hfb
              simp only [try_langchain_agent] at hl
              rw [if_pos (Or.inr hblank)] at hl
              exact Except.noConfusion hl
          | error je2 =>
            simp only [thinking_capability, hv, ho, hf, if_true, hl]
            refine ⟨by simp [errorResult], by simp [errorResult], by simp [errorResult], ?_⟩
            intro _ _ _
            constructor
            · intro hfb
              subst hfb
              simp only [try_langchain_agent] at hl
              have hje2 := Except.error.inj hl
              rw [← hje2]
              exact ⟨rfl, rfl⟩
            · intro r hfb hblank
              subst hfb
              simp only [try_langchain_agent] at hl
              rw [if_pos (Or.inr hblank)] at hl
              have hje2 := Except.error.inj hl
              rw [← hje2]
              exact ⟨rfl, rfl⟩
        · simp only [thinking_capability, hv, ho]
          rw [if_neg hf]
          simp [errorResult, hf]
    | error je =>
      simp only [thinking_capability, hv, ho]
      simp [errorResult]

/-- Witness for the C7 theorem: under the default configuration, with an
orchestrator that returns an empty (insufficient) response and a fallback
agent that exceeds its timeout, dispatch returns a structured failure with
error code `EXECUTION_TIMEOUT`. -/
theorem thinking_capability_total_spec_witness :
    (validate_query defaultConfig (some "hello") = none ∧
      (try_orchestrator defaultConfig (fun _ => Except.ok "")).1
        = Except.ok none ∧
      defaultConfig.enable_fallback = true) ∧
    ((thinking_capability defaultConfig initialMetrics (some "hello")
        (fun _ => Except.ok "") FallbackBehavior.times_out 0).result.success
      = false ∧
      (thinking_capability defaultConfig initialMetrics (some "hello")
        (fun _ => Except.ok "") FallbackBehavior.times_out 0).result.error_code
      = some "EXECUTION_TIMEOUT") :=
  ⟨⟨by decide, rfl, rfl⟩,
    ((thinking_capability_total_spec defaultConfig initialMetrics (some "hello")
        (fun _ => Except.ok "") FallbackBehavior.times_out 0 _ rfl).2.2.2
      (by decide) rfl rfl).1 rfl⟩

/-- A concrete operation for the C6 witness: it fails on attempts 0 and 1
and succeeds on attempt 2. -/
def retryDemo : ℕ → Except String String :=
  fun j => if j < 2 then Except.error "boom" else Except.ok "done"

/-- Witness for the C6 theorem at `max_retries = 3`, `k = 2`,
`base_delay = 1`. -/
theorem retry_with_backoff_spec_witness :
    (2 ≤ 3 ∧ (∀ i, i < 2 → ∃ e, retryDemo i = Except.error e) ∧
      retryDemo 2 = Except.ok "done") ∧
    (retry_with_backoff retryDemo 3 1 =
      (Except.ok "done", (List.range 2).map (fun i => (1 : ℚ) * 2 ^ i), 3) ∧
      ((List.range 2).map (fun i => (1 : ℚ) * 2 ^ i)).sum =
        1 * ((List.range 2).map (fun i => (2 : ℚ) ^ i)).sum) :=
  ⟨⟨by omega, fun i hi => ⟨"boom", by interval_cases i <;> rfl⟩, rfl⟩,
    (retry_with_backoff_spec retryDemo 3 2 1 "done").2.1 (by omega)
      (fun i hi => ⟨"boom", by interval_cases i <;> rfl⟩) rfl⟩

end Jarvis
